import Mathlib

/-!
Shallow embedding of the core of `engine/wonyotti_strategy.py`: the Series
Loader (`load_data`), the Factor Engine (`calculate_rsi`, `calculate_factors`)
and the Signal Classifier (`generate_signal`), together with the `__main__`
driver's insufficient-history short circuit.

Modelling conventions:
* pandas `NaN` is `Option.none`; a defined float is `some (x : ℝ)`.
* `Series.rolling(window=w).mean()` (default `min_periods = w`) yields a value
  at row `i` iff `i + 1 ≥ w` and all `w` trailing cells are defined; this is
  `rollingMeanAt` below, built from the trailing window `winCells`.
* `Series.where(cond, other)` keeps a defined value where `cond` holds and
  substitutes `other` elsewhere; on an undefined (`NaN`) cell a comparison such
  as `delta > 0` is false, so `delta.where(delta > 0, 0)` turns `NaN` into `0`
  (the `gainAt`/`lossAt` functions are therefore total), while `x != 0` is true
  on `NaN`, so the three divide-by-zero guards leave `NaN` unchanged.
* `pct_change` at row `i` is `(close[i] - close[i-1]) / close[i-1]`, undefined
  at `i = 0` or when either close is undefined.
* `.std()` is the sample standard deviation (`ddof = 1`), window 20.
* Raw JSON scalars are `Cell`s: a numeric value (or numeric string, which
  `pd.to_numeric` coerces identically) is `Cell.num x`, an already-missing
  value is `Cell.nan`, and a value `pd.to_numeric(errors=coerce)` cannot
  coerce is `Cell.obj s`.
-/

open Classical
noncomputable section

namespace Wonyotti

/-- `CONFIG["RSI_PERIOD"]`. -/
def RSI_PERIOD : ℕ := 14

/-- `CONFIG["VOLUME_MA_PERIOD"]`. -/
def VOLUME_MA_PERIOD : ℕ := 20

/-- `CONFIG["Z_SCORE_THRESHOLD"]`. -/
def Z_SCORE_THRESHOLD : ℝ := 2.0

/-! ## Series Loader (`load_data`) -/

/-- One raw JSON scalar as seen by the loader. -/
inductive Cell
  | num (x : ℝ)
  | nan
  | obj (s : String)

/-- A raw bar record with the five numeric fields. -/
structure RawBar where
  open_ : Cell
  high : Cell
  low : Cell
  close : Cell
  volume : Cell

/-- The two accepted input shapes: a record with a `candles` list (shape A) or a
bare list of bars (shape B, reached through the `except` fallback because
`raw_data['candles']` on a list raises `TypeError`). -/
inductive RawInput
  | withCandles (candles : List RawBar)
  | bareList (bars : List RawBar)

/-- `pd.to_numeric(col, errors='coerce')` on one cell: numerics pass through,
everything non-coercible becomes `NaN`. -/
def to_numeric : Cell → Cell
  | .num x => .num x
  | .nan => .nan
  | .obj _ => .nan

/-- The per-column coercion loop of `load_data`, applied to one bar. -/
def coerceBar (b : RawBar) : RawBar :=
  ⟨to_numeric b.open_, to_numeric b.high, to_numeric b.low,
   to_numeric b.close, to_numeric b.volume⟩

/-- `load_data`: shape A builds the frame from `raw_data['candles']` and coerces
all five columns; the shape-B fallback is `pd.DataFrame(raw_data)` returned
directly, with no coercion loop. -/
def load_data : RawInput → List RawBar
  | .withCandles cs => cs.map coerceBar
  | .bareList bs => bs

/-- A cell holds either a float or the missing marker (no raw object left). -/
def numOrMissing : Cell → Prop
  | .num _ => True
  | .nan => True
  | .obj _ => False

/-! ## Factor Engine -/

/-- One loaded table cell: `close[i]` etc., `none` = `NaN`. -/
def cellAt (xs : List (Option ℝ)) (i : ℕ) : Option ℝ :=
  xs.getD i none

/-- Sequence a list of optional values; `none` if any entry is `NaN`. -/
def optList : List (Option ℝ) → Option (List ℝ)
  | [] => some []
  | none :: _ => none
  | some x :: cs => (optList cs).map (fun xs => x :: xs)

/-- The trailing window of `w` cells ending at row `i` (rows `i+1-w .. i`). -/
def winCells (w : ℕ) (xs : List (Option ℝ)) (i : ℕ) : List (Option ℝ) :=
  (List.range w).map (fun k => cellAt xs (i + 1 - w + k))

/-- The window's values when the row has full history and no `NaN` inside. -/
def winVals (w : ℕ) (xs : List (Option ℝ)) (i : ℕ) : Option (List ℝ) :=
  if i + 1 < w then none else optList (winCells w xs i)

/-- Arithmetic mean of a list of reals. -/
def meanListR (l : List ℝ) : ℝ := l.sum / l.length

/-- `xs.rolling(window=w).mean()` at row `i`. -/
def rollingMeanAt (w : ℕ) (xs : List (Option ℝ)) (i : ℕ) : Option ℝ :=
  (winVals w xs i).map meanListR

/-- `series.diff()` at row `i`. -/
def diffAt (s : List (Option ℝ)) (i : ℕ) : Option ℝ :=
  if i = 0 then none
  else
    match cellAt s i, cellAt s (i - 1) with
    | some a, some b => some (a - b)
    | _, _ => none

/-- `delta.where(delta > 0, 0)` at row `i`: total, `NaN` becomes `0`. -/
def gainAt (s : List (Option ℝ)) (i : ℕ) : ℝ :=
  match diffAt s i with
  | some d => if 0 < d then d else 0
  | none => 0

/-- `(-delta.where(delta < 0, 0))` at row `i`: total, `NaN` becomes `0`. -/
def lossAt (s : List (Option ℝ)) (i : ℕ) : ℝ :=
  match diffAt s i with
  | some d => if d < 0 then -d else 0
  | none => 0

/-- `gain.rolling(window=period).mean()` at row `i` (the gain series is total,
so only short history yields `NaN`). -/
def gainMeanAt (p : ℕ) (s : List (Option ℝ)) (i : ℕ) : Option ℝ :=
  if i + 1 < p then none
  else some (meanListR ((List.range p).map (fun k => gainAt s (i + 1 - p + k))))

/-- `loss.rolling(window=period).mean()` at row `i`. -/
def lossMeanAt (p : ℕ) (s : List (Option ℝ)) (i : ℕ) : Option ℝ :=
  if i + 1 < p then none
  else some (meanListR ((List.range p).map (fun k => lossAt s (i + 1 - p + k))))

/-- `loss.where(loss != 0, 0.0001)`: exact zero is substituted, `NaN` kept. -/
def lossGuardAt (p : ℕ) (s : List (Option ℝ)) (i : ℕ) : Option ℝ :=
  (lossMeanAt p s i).map (fun L => if L = 0 then 0.0001 else L)

/-- `calculate_rsi` at row `i`: `100 - 100 / (1 + gain/loss)`. -/
def calculate_rsi (s : List (Option ℝ)) (i : ℕ) : Option ℝ :=
  match gainMeanAt RSI_PERIOD s i, lossGuardAt RSI_PERIOD s i with
  | some g, some L => some (100 - 100 / (1 + g / L))
  | _, _ => none

/-- `volume.rolling(20).mean()` followed by `.where(ma != 0, 1)`. -/
def volume_maAt (vols : List (Option ℝ)) (i : ℕ) : Option ℝ :=
  (rollingMeanAt VOLUME_MA_PERIOD vols i).map (fun m => if m = 0 then 1 else m)

/-- `close.pct_change()` at row `i`. -/
def price_change_pctAt (closes : List (Option ℝ)) (i : ℕ) : Option ℝ :=
  if i = 0 then none
  else
    match cellAt closes i, cellAt closes (i - 1) with
    | some a, some b => some ((a - b) / b)
    | _, _ => none

/-- `vpd_factor = (volume / volume_ma) / (|price_change_pct| + 1e-6)`. -/
def vpd_factorAt (vols closes : List (Option ℝ)) (i : ℕ) : Option ℝ :=
  match cellAt vols i, volume_maAt vols i, price_change_pctAt closes i with
  | some v, some m, some p => some ((v / m) / (|p| + 1e-6))
  | _, _, _ => none

/-- Sample variance (`ddof = 1`) of a list of reals. -/
def varSample (l : List ℝ) : ℝ :=
  ((l.map (fun x => (x - meanListR l) ^ 2)).sum) / ((l.length : ℝ) - 1)

/-- `close.rolling(20).std()` at row `i`. -/
def std_20At (closes : List (Option ℝ)) (i : ℕ) : Option ℝ :=
  (winVals 20 closes i).map (fun l => Real.sqrt (varSample l))

/-- `std_20.where(std_20 != 0, 0.0001)`. -/
def std_guardAt (closes : List (Option ℝ)) (i : ℕ) : Option ℝ :=
  (std_20At closes i).map (fun sd => if sd = 0 then 0.0001 else sd)

/-- `z_score = (close - ma_20) / std_20` at row `i`. -/
def z_scoreAt (closes : List (Option ℝ)) (i : ℕ) : Option ℝ :=
  match cellAt closes i, rollingMeanAt 20 closes i, std_guardAt closes i with
  | some c, some m, some sd => some ((c - m) / sd)
  | _, _, _ => none

/-- One loaded numeric bar (the frame columns the engine reads). -/
structure Bar where
  open_ : Option ℝ
  high : Option ℝ
  low : Option ℝ
  close : Option ℝ
  volume : Option ℝ

/-- The `close` column. -/
def closesOf (df : List Bar) : List (Option ℝ) := df.map Bar.close

/-- The `volume` column. -/
def volumesOf (df : List Bar) : List (Option ℝ) := df.map Bar.volume

/-- One row of the augmented frame produced by `calculate_factors`. -/
structure Row where
  close : Option ℝ
  volume_ma : Option ℝ
  price_change_pct : Option ℝ
  vpd_factor : Option ℝ
  rsi : Option ℝ
  z_score : Option ℝ

/-- The augmented row at index `i`. -/
def rowAt (df : List Bar) (i : ℕ) : Row :=
  { close := cellAt (closesOf df) i
    volume_ma := volume_maAt (volumesOf df) i
    price_change_pct := price_change_pctAt (closesOf df) i
    vpd_factor := vpd_factorAt (volumesOf df) (closesOf df) i
    rsi := calculate_rsi (closesOf df) i
    z_score := z_scoreAt (closesOf df) i }

/-- `calculate_factors`: the frame augmented with the factor columns. -/
def calculate_factors (df : List Bar) : List Row :=
  (List.range df.length).map (rowAt df)

/-! ## Signal Classifier (`generate_signal`) -/

/-- The action enumeration. -/
inductive Action
  | STRONG_BUY
  | BUY
  | HOLD
  | SELL
  | SKIP
deriving DecidableEq

/-- The output record of `generate_signal`. -/
structure SignalResult where
  timestamp : String
  close_price : Option ℝ
  vpd : ℝ
  rsi : ℝ
  z_score : ℝ
  score : ℕ
  action : Action
  reason : String

/-- `safe_get`: a defined value passes through, `NaN` becomes the default. -/
def safe_get (v : Option ℝ) (default : ℝ) : ℝ :=
  v.getD default

/-- `generate_signal` on the latest row (`df.iloc[-1]`); the positional index
makes the timestamp the literal `"Latest"`. -/
def generate_signal (latest : Row) : SignalResult :=
  let vpd := safe_get latest.vpd_factor 0
  let rsi := safe_get latest.rsi 50
  let z := safe_get latest.z_score 0
  if rsi < 30 ∧ vpd > 2.0 then
    ⟨"Latest", latest.close, vpd, rsi, z, 90, .STRONG_BUY,
      "패닉 셀링 포착 (RSI 과매도 + 거래량 급증)"⟩
  else if z < -Z_SCORE_THRESHOLD then
    ⟨"Latest", latest.close, vpd, rsi, z, 75, .BUY,
      "가격 괴리 (20일 이평선 대비 과매도)"⟩
  else if rsi > 70 then
    ⟨"Latest", latest.close, vpd, rsi, z, 20, .SELL,
      "과매수 구간 진입 (RSI > 70)"⟩
  else if z > Z_SCORE_THRESHOLD then
    ⟨"Latest", latest.close, vpd, rsi, z, 30, .SELL,
      "가격 괴리 (20일 이평선 대비 과열)"⟩
  else
    ⟨"Latest", latest.close, vpd, rsi, z, 50, .HOLD,
      "관망 (특이 시그널 없음)"⟩

/-! ## `__main__` driver -/

/-- What one engine run prints: the insufficient-history short circuit, a
signal record, or the `except` error record. -/
inductive Output
  | skip (n : ℕ)
  | signal (r : SignalResult)
  | error (msg : String)

/-- The `__main__` path after loading: short-circuit below 20 rows, otherwise
compute factors and classify the last row (an empty frame would raise inside
`iloc[-1]` and surface as the error record). -/
def run_main (df : List Bar) : Output :=
  if df.length < 20 then .skip df.length
  else
    match (calculate_factors df).getLast? with
    | some latest => .signal (generate_signal latest)
    | none => .error "Script execution failed"

/-! ## Helper lemmas -/

/-- Coercing any raw cell leaves a float or the missing marker. -/
lemma numOrMissing_to_numeric (c : Cell) : numOrMissing (to_numeric c) := by
  cases c <;> trivial

/-- The classifier never emits `SKIP`. -/
lemma generate_signal_action_ne_SKIP (row : Row) :
    (generate_signal row).action ≠ Action.SKIP := by
  unfold generate_signal
  dsimp only
  split_ifs <;> simp

/-- The classifier copies the latest row's raw close into `close_price` in
every branch. -/
lemma generate_signal_close_price (row : Row) :
    (generate_signal row).close_price = row.close := by
  unfold generate_signal
  dsimp only
  split_ifs <;> rfl

/-- `calculate_factors` ends with the row at the last index. -/
lemma calculate_factors_getLast? (df : List Bar) (h : 0 < df.length) :
    (calculate_factors df).getLast? = some (rowAt df (df.length - 1)) := by
  have hlen : (calculate_factors df).length = df.length := by
    simp [calculate_factors]
  rw [List.getLast?_eq_getElem?, hlen]
  unfold calculate_factors
  rw [List.getElem?_map, List.getElem?_range (by omega)]
  rfl

/-- A mean of pointwise-nonnegative values is nonnegative. -/
lemma meanListR_nonneg {l : List ℝ} (h : ∀ x ∈ l, 0 ≤ x) : 0 ≤ meanListR l :=
  div_nonneg (List.sum_nonneg h) (Nat.cast_nonneg _)

/-- The gain series is pointwise nonnegative. -/
lemma gainAt_nonneg (s : List (Option ℝ)) (i : ℕ) : 0 ≤ gainAt s i := by
  unfold gainAt
  cases diffAt s i with
  | none => exact le_refl 0
  | some d =>
    dsimp only
    split_ifs with h
    · exact h.le
    · exact le_refl 0

/-- The loss series is pointwise nonnegative. -/
lemma lossAt_nonneg (s : List (Option ℝ)) (i : ℕ) : 0 ≤ lossAt s i := by
  unfold lossAt
  cases diffAt s i with
  | none => exact le_refl 0
  | some d =>
    dsimp only
    split_ifs with h
    · linarith
    · exact le_refl 0

/-- A defined rolling gain mean is nonnegative. -/
lemma gainMeanAt_nonneg {p : ℕ} {s : List (Option ℝ)} {i : ℕ} {g : ℝ}
    (h : gainMeanAt p s i = some g) : 0 ≤ g := by
  unfold gainMeanAt at h
  split_ifs at h
  rw [Option.some.injEq] at h
  subst h
  refine meanListR_nonneg fun x hx => ?_
  obtain ⟨k, _, rfl⟩ := List.mem_map.mp hx
  exact gainAt_nonneg _ _

/-- A defined guarded rolling loss mean is strictly positive. -/
lemma lossGuardAt_pos {p : ℕ} {s : List (Option ℝ)} {i : ℕ} {L : ℝ}
    (h : lossGuardAt p s i = some L) : 0 < L := by
  unfold lossGuardAt at h
  rcases hm : lossMeanAt p s i with _ | L0 <;> rw [hm] at h
  · exact absurd h (by simp)
  · rw [Option.map_some', Option.some.injEq] at h
    have h0 : 0 ≤ L0 := by
      unfold lossMeanAt at hm
      split_ifs at hm
      rw [Option.some.injEq] at hm
      subst hm
      refine meanListR_nonneg fun x hx => ?_
      obtain ⟨k, _, rfl⟩ := List.mem_map.mp hx
      exact lossAt_nonneg _ _
    subst h
    split_ifs with hz
    · norm_num
    · exact lt_of_le_of_ne h0 (Ne.symm hz)

/-- A defined cell is an element of its column. -/
lemma cellAt_mem {xs : List (Option ℝ)} {j : ℕ} {y : ℝ}
    (h : cellAt xs j = some y) : some y ∈ xs := by
  unfold cellAt at h
  rw [List.getD_eq_getElem?_getD] at h
  rcases he : xs[j]? with _ | c <;> rw [he] at h
  · exact absurd h (by simp)
  · rw [Option.getD_some] at h
    subst h
    exact List.getElem?_mem he

/-- Every value sequenced out of a cell list comes from one of its cells. -/
lemma optList_mem : ∀ {cs : List (Option ℝ)} {l : List ℝ},
    optList cs = some l → ∀ y ∈ l, some y ∈ cs := by
  intro cs
  induction cs with
  | nil =>
    intro l h y hy
    unfold optList at h
    rw [Option.some.injEq] at h
    subst h
    exact absurd hy (List.not_mem_nil y)
  | cons c cs ih =>
    intro l h y hy
    rcases c with _ | x
    · exact absurd h (by simp [optList])
    · unfold optList at h
      rcases ho : optList cs with _ | xs <;> rw [ho] at h
      · exact absurd h (by simp)
      · rw [Option.map_some', Option.some.injEq] at h
        subst h
        rcases List.mem_cons.mp hy with rfl | hmem
        · exact List.mem_cons_self _ _
        · exact List.mem_cons_of_mem _ (ih ho y hmem)

/-- Every value in a realized window comes from a cell of the column. -/
lemma winVals_mem {w : ℕ} {xs : List (Option ℝ)} {i : ℕ} {l : List ℝ}
    (h : winVals w xs i = some l) {y : ℝ} (hy : y ∈ l) : some y ∈ xs := by
  unfold winVals at h
  split_ifs at h
  have := optList_mem h y hy
  obtain ⟨k, _, hk⟩ := List.mem_map.mp this
  exact cellAt_mem hk

/-- A defined rolling mean over a nonnegative column is nonnegative. -/
lemma rollingMeanAt_nonneg {w : ℕ} {xs : List (Option ℝ)} {i : ℕ} {m : ℝ}
    (hnn : ∀ y : ℝ, some y ∈ xs → 0 ≤ y)
    (h : rollingMeanAt w xs i = some m) : 0 ≤ m := by
  unfold rollingMeanAt at h
  rcases hv : winVals w xs i with _ | l <;> rw [hv] at h
  · exact absurd h (by simp)
  · rw [Option.map_some', Option.some.injEq] at h
    subst h
    exact meanListR_nonneg fun x hx => hnn x (winVals_mem hv hx)

/-- A defined guarded volume moving average is strictly positive when all
defined volumes are nonnegative. -/
lemma volume_maAt_pos {vols : List (Option ℝ)} {i : ℕ} {m : ℝ}
    (hnn : ∀ y : ℝ, some y ∈ vols → 0 ≤ y)
    (h : volume_maAt vols i = some m) : 0 < m := by
  unfold volume_maAt at h
  rcases hr : rollingMeanAt VOLUME_MA_PERIOD vols i with _ | m0 <;> rw [hr] at h
  · exact absurd h (by simp)
  · rw [Option.map_some', Option.some.injEq] at h
    subst h
    have h0 : 0 ≤ m0 := rollingMeanAt_nonneg hnn hr
    split_ifs with hz
    · norm_num
    · exact lt_of_le_of_ne h0 (Ne.symm hz)

/-! ### Causality: every factor at row `i` reads only cells at rows `≤ i` -/

/-- Columns that agree up to row `i` have equal cells at every row `j ≤ i`. -/
lemma cellAt_eq_of_take_eq {l₁ l₂ : List (Option ℝ)} {i : ℕ}
    (h : l₁.take (i + 1) = l₂.take (i + 1)) {j : ℕ} (hj : j ≤ i) :
    cellAt l₁ j = cellAt l₂ j := by
  unfold cellAt
  rw [List.getD_eq_getElem?_getD, List.getD_eq_getElem?_getD]
  have he : (l₁.take (i + 1))[j]? = (l₂.take (i + 1))[j]? := by rw [h]
  rw [List.getElem?_take, List.getElem?_take, if_pos (by omega),
    if_pos (by omega)] at he
  rw [he]

/-- Agreement hypothesis used by the per-factor congruence lemmas. -/
def AgreeUpTo (l₁ l₂ : List (Option ℝ)) (i : ℕ) : Prop :=
  ∀ j ≤ i, cellAt l₁ j = cellAt l₂ j

/-- The realized window at row `i` reads only cells at rows `≤ i`. -/
lemma winVals_congr {l₁ l₂ : List (Option ℝ)} {i : ℕ} (w : ℕ)
    (hag : AgreeUpTo l₁ l₂ i) : winVals w l₁ i = winVals w l₂ i := by
  unfold winVals
  split_ifs with h
  · rfl
  · unfold winCells
    rw [List.map_congr_left]
    intro k hk
    rw [List.mem_range] at hk
    exact hag _ (by omega)

/-- The rolling mean at row `i` reads only cells at rows `≤ i`. -/
lemma rollingMeanAt_congr {l₁ l₂ : List (Option ℝ)} {i : ℕ} (w : ℕ)
    (hag : AgreeUpTo l₁ l₂ i) :
    rollingMeanAt w l₁ i = rollingMeanAt w l₂ i := by
  unfold rollingMeanAt
  rw [winVals_congr w hag]

/-- The guarded volume moving average reads only cells at rows `≤ i`. -/
lemma volume_maAt_congr {l₁ l₂ : List (Option ℝ)} {i : ℕ}
    (hag : AgreeUpTo l₁ l₂ i) : volume_maAt l₁ i = volume_maAt l₂ i := by
  unfold volume_maAt
  rw [rollingMeanAt_congr VOLUME_MA_PERIOD hag]

/-- `pct_change` at row `i` reads only rows `i` and `i - 1`. -/
lemma price_change_pctAt_congr {l₁ l₂ : List (Option ℝ)} {i : ℕ}
    (hag : AgreeUpTo l₁ l₂ i) :
    price_change_pctAt l₁ i = price_change_pctAt l₂ i := by
  unfold price_change_pctAt
  rw [hag i (le_refl i), hag (i - 1) (by omega)]

/-- The VPD factor at row `i` reads only cells at rows `≤ i`. -/
lemma vpd_factorAt_congr {v₁ v₂ c₁ c₂ : List (Option ℝ)} {i : ℕ}
    (hagv : AgreeUpTo v₁ v₂ i) (hagc : AgreeUpTo c₁ c₂ i) :
    vpd_factorAt v₁ c₁ i = vpd_factorAt v₂ c₂ i := by
  unfold vpd_factorAt
  rw [hagv i (le_refl i), volume_maAt_congr hagv,
    price_change_pctAt_congr hagc]

/-- `diff` at row `j` reads only rows `j` and `j - 1`. -/
lemma diffAt_congr {l₁ l₂ : List (Option ℝ)} {i : ℕ}
    (hag : AgreeUpTo l₁ l₂ i) {j : ℕ} (hj : j ≤ i) :
    diffAt l₁ j = diffAt l₂ j := by
  unfold diffAt
  rw [hag j hj, hag (j - 1) (by omega)]

/-- The gain series at row `j` reads only rows `≤ j`. -/
lemma gainAt_congr {l₁ l₂ : List (Option ℝ)} {i : ℕ}
    (hag : AgreeUpTo l₁ l₂ i) {j : ℕ} (hj : j ≤ i) :
    gainAt l₁ j = gainAt l₂ j := by
  unfold gainAt
  rw [diffAt_congr hag hj]

/-- The loss series at row `j` reads only rows `≤ j`. -/
lemma lossAt_congr {l₁ l₂ : List (Option ℝ)} {i : ℕ}
    (hag : AgreeUpTo l₁ l₂ i) {j : ℕ} (hj : j ≤ i) :
    lossAt l₁ j = lossAt l₂ j := by
  unfold lossAt
  rw [diffAt_congr hag hj]

/-- The rolling gain mean at row `i` reads only cells at rows `≤ i`. -/
lemma gainMeanAt_congr {l₁ l₂ : List (Option ℝ)} {i : ℕ} (p : ℕ)
    (hag : AgreeUpTo l₁ l₂ i) : gainMeanAt p l₁ i = gainMeanAt p l₂ i := by
  unfold gainMeanAt
  split_ifs with h
  · rfl
  · rw [Option.some.injEq]
    congr 1
    rw [List.map_congr_left]
    intro k hk
    rw [List.mem_range] at hk
    exact gainAt_congr hag (by omega)

/-- The rolling loss mean at row `i` reads only cells at rows `≤ i`. -/
lemma lossMeanAt_congr {l₁ l₂ : List (Option ℝ)} {i : ℕ} (p : ℕ)
    (hag : AgreeUpTo l₁ l₂ i) : lossMeanAt p l₁ i = lossMeanAt p l₂ i := by
  unfold lossMeanAt
  split_ifs with h
  · rfl
  · rw [Option.some.injEq]
    congr 1
    rw [List.map_congr_left]
    intro k hk
    rw [List.mem_range] at hk
    exact lossAt_congr hag (by omega)

/-- The RSI at row `i` reads only cells at rows `≤ i`. -/
lemma calculate_rsi_congr {l₁ l₂ : List (Option ℝ)} {i : ℕ}
    (hag : AgreeUpTo l₁ l₂ i) : calculate_rsi l₁ i = calculate_rsi l₂ i := by
  unfold calculate_rsi lossGuardAt
  rw [gainMeanAt_congr RSI_PERIOD hag, lossMeanAt_congr RSI_PERIOD hag]

/-- The guarded rolling std at row `i` reads only cells at rows `≤ i`. -/
lemma std_guardAt_congr {l₁ l₂ : List (Option ℝ)} {i : ℕ}
    (hag : AgreeUpTo l₁ l₂ i) : std_guardAt l₁ i = std_guardAt l₂ i := by
  unfold std_guardAt std_20At
  rw [winVals_congr 20 hag]

/-- The z-score at row `i` reads only cells at rows `≤ i`. -/
lemma z_scoreAt_congr {l₁ l₂ : List (Option ℝ)} {i : ℕ}
    (hag : AgreeUpTo l₁ l₂ i) : z_scoreAt l₁ i = z_scoreAt l₂ i := by
  unfold z_scoreAt
  rw [hag i (le_refl i), rollingMeanAt_congr 20 hag, std_guardAt_congr hag]

/-! ### Constant (flat) series evaluation -/

/-- A cell of a constant column. -/
lemma cellAt_replicate {n j : ℕ} (c : ℝ) (hj : j < n) :
    cellAt (List.replicate n (some c)) j = some c := by
  unfold cellAt
  rw [List.getD_eq_getElem?_getD,
    List.getElem?_eq_getElem (by simpa using hj), List.getElem_replicate,
    Option.getD_some]

/-- A realized trailing window of a constant column is constant. -/
lemma winCells_replicate {n w i : ℕ} (c : ℝ) (hw : w ≤ i + 1) (hi : i < n) :
    winCells w (List.replicate n (some c)) i = List.replicate w (some c) := by
  apply List.eq_replicate_iff.mpr
  refine ⟨by simp [winCells], ?_⟩
  intro b hb
  obtain ⟨k, hk, rfl⟩ := List.mem_map.mp hb
  rw [List.mem_range] at hk
  exact cellAt_replicate c (by omega)

/-- Sequencing a constant defined window. -/
lemma optList_replicate (w : ℕ) (c : ℝ) :
    optList (List.replicate w (some c)) = some (List.replicate w c) := by
  induction w with
  | zero => rfl
  | succ k ih => simp [List.replicate_succ, optList, ih]

/-- The realized window of a constant column. -/
lemma winVals_replicate {n w i : ℕ} (c : ℝ) (hw : w ≤ i + 1) (hi : i < n) :
    winVals w (List.replicate n (some c)) i = some (List.replicate w c) := by
  unfold winVals
  rw [if_neg (by omega), winCells_replicate c hw hi, optList_replicate]

/-- The mean of a constant window. -/
lemma meanListR_replicate {w : ℕ} (hw : w ≠ 0) (c : ℝ) :
    meanListR (List.replicate w c) = c := by
  unfold meanListR
  rw [List.sum_replicate, List.length_replicate, nsmul_eq_mul]
  exact mul_div_cancel_left₀ c (Nat.cast_ne_zero.mpr hw)

/-- The mean of an all-zero window. -/
lemma meanListR_replicate_zero (w : ℕ) :
    meanListR (List.replicate w (0 : ℝ)) = 0 := by
  unfold meanListR
  rw [List.sum_replicate, smul_zero, zero_div]

/-- The rolling mean of a constant column. -/
lemma rollingMeanAt_replicate {n w i : ℕ} (c : ℝ) (hw : w ≠ 0)
    (hw2 : w ≤ i + 1) (hi : i < n) :
    rollingMeanAt w (List.replicate n (some c)) i = some c := by
  unfold rollingMeanAt
  rw [winVals_replicate c hw2 hi, Option.map_some', meanListR_replicate hw]

/-- A constant window has zero sample variance. -/
lemma varSample_replicate {w : ℕ} (hw : w ≠ 0) (c : ℝ) :
    varSample (List.replicate w c) = 0 := by
  unfold varSample
  rw [meanListR_replicate hw, List.map_replicate]
  simp

/-- On a constant close column the zero rolling std is guard-substituted. -/
lemma std_guardAt_replicate {n i : ℕ} (c : ℝ) (h20 : 20 ≤ i + 1) (hi : i < n) :
    std_guardAt (List.replicate n (some c)) i = some 0.0001 := by
  unfold std_guardAt std_20At
  rw [winVals_replicate c h20 hi, Option.map_some', Option.map_some',
    varSample_replicate (by norm_num) c, Real.sqrt_zero, if_pos rfl]

/-- The z-score of a flat close series is zero (no division error). -/
lemma z_scoreAt_replicate {n i : ℕ} (c : ℝ) (h19 : 19 ≤ i) (hi : i < n) :
    z_scoreAt (List.replicate n (some c)) i = some 0 := by
  unfold z_scoreAt
  rw [cellAt_replicate c hi,
    rollingMeanAt_replicate c (by norm_num) (by omega) hi,
    std_guardAt_replicate c (by omega) hi]
  simp

/-- `diff` on a constant column. -/
lemma diffAt_replicate {n j : ℕ} (c : ℝ) (hj : j < n) :
    diffAt (List.replicate n (some c)) j = if j = 0 then none else some 0 := by
  unfold diffAt
  split_ifs with h
  · rfl
  · rw [cellAt_replicate c hj, cellAt_replicate c (by omega)]
    simp

/-- Gains vanish on a constant column. -/
lemma gainAt_replicate {n j : ℕ} (c : ℝ) (hj : j < n) :
    gainAt (List.replicate n (some c)) j = 0 := by
  unfold gainAt
  rw [diffAt_replicate c hj]
  split_ifs <;> simp

/-- Losses vanish on a constant column. -/
lemma lossAt_replicate {n j : ℕ} (c : ℝ) (hj : j < n) :
    lossAt (List.replicate n (some c)) j = 0 := by
  unfold lossAt
  rw [diffAt_replicate c hj]
  split_ifs <;> simp

/-- The rolling gain mean of a constant column is zero. -/
lemma gainMeanAt_replicate {n p i : ℕ} (c : ℝ) (hp : p ≤ i + 1) (hi : i < n) :
    gainMeanAt p (List.replicate n (some c)) i = some 0 := by
  unfold gainMeanAt
  rw [if_neg (by omega)]
  have hmap : ((List.range p).map
      fun k => gainAt (List.replicate n (some c)) (i + 1 - p + k)) =
      List.replicate p 0 := by
    apply List.eq_replicate_iff.mpr
    refine ⟨by simp, ?_⟩
    intro b hb
    obtain ⟨k, hk, rfl⟩ := List.mem_map.mp hb
    rw [List.mem_range] at hk
    exact gainAt_replicate c (by omega)
  rw [hmap, meanListR_replicate_zero]

/-- The guarded rolling loss mean of a constant column is the substituted
constant `0.0001`. -/
lemma lossGuardAt_replicate {n p i : ℕ} (c : ℝ) (hp : p ≤ i + 1) (hi : i < n) :
    lossGuardAt p (List.replicate n (some c)) i = some 0.0001 := by
  unfold lossGuardAt lossMeanAt
  rw [if_neg (by omega)]
  have hmap : ((List.range p).map
      fun k => lossAt (List.replicate n (some c)) (i + 1 - p + k)) =
      List.replicate p 0 := by
    apply List.eq_replicate_iff.mpr
    refine ⟨by simp, ?_⟩
    intro b hb
    obtain ⟨k, hk, rfl⟩ := List.mem_map.mp hb
    rw [List.mem_range] at hk
    exact lossAt_replicate c (by omega)
  rw [hmap, meanListR_replicate_zero, Option.map_some', if_pos rfl]

/-- The RSI of a flat close series: loss is substituted to `0.0001`, `rs = 0`
and the RSI evaluates to `0`. -/
lemma calculate_rsi_replicate {n i : ℕ} (c : ℝ) (h13 : 13 ≤ i) (hi : i < n) :
    calculate_rsi (List.replicate n (some c)) i = some 0 := by
  unfold calculate_rsi
  rw [gainMeanAt_replicate c (by unfold RSI_PERIOD; omega) hi,
    lossGuardAt_replicate c (by unfold RSI_PERIOD; omega) hi]
  norm_num

/-- `pct_change` of a flat close series is zero away from row 0. -/
lemma price_change_pctAt_replicate {n i : ℕ} (c : ℝ) (h1 : 1 ≤ i) (hi : i < n) :
    price_change_pctAt (List.replicate n (some c)) i = some 0 := by
  unfold price_change_pctAt
  rw [if_neg (by omega), cellAt_replicate c hi, cellAt_replicate c (by omega)]
  simp

/-- The guarded volume moving average of a constant nonzero volume column. -/
lemma volume_maAt_replicate {n i : ℕ} (v : ℝ) (hv : v ≠ 0)
    (h20 : 20 ≤ i + 1) (hi : i < n) :
    volume_maAt (List.replicate n (some v)) i = some v := by
  unfold volume_maAt
  rw [rollingMeanAt_replicate v (by unfold VOLUME_MA_PERIOD; norm_num)
    (by unfold VOLUME_MA_PERIOD; omega) hi, Option.map_some', if_neg hv]

/-- The VPD factor of a flat series with constant nonzero volume is
`1 / 1e-6 = 1000000`. -/
lemma vpd_factorAt_replicate {n i : ℕ} (v c : ℝ) (hv : v ≠ 0)
    (h20 : 20 ≤ i + 1) (hi : i < n) :
    vpd_factorAt (List.replicate n (some v)) (List.replicate n (some c)) i =
      some 1000000 := by
  unfold vpd_factorAt
  rw [cellAt_replicate v hi, volume_maAt_replicate v hv h20 hi,
    price_change_pctAt_replicate c (by omega) hi]
  norm_num [div_self hv]

end Wonyotti

namespace Wonyotti

/-! ## Claims -/

/-- C1: the Signal Classifier evaluates its five rules in the stated order with
first-match-wins semantics on the default-substituted factor values; in
particular when rule 1 (`rsi < 30 ∧ vpd > 2.0`) and rule 2 (`z < -2.0`) hold
simultaneously, the action is `STRONG_BUY` with score 90, not `BUY`. -/
theorem claim_C1_rule_order (row : Row) :
    (safe_get row.rsi 50 < 30 ∧ safe_get row.vpd_factor 0 > 2.0 →
      (generate_signal row).action = Action.STRONG_BUY ∧
        (generate_signal row).score = 90) ∧
    (¬(safe_get row.rsi 50 < 30 ∧ safe_get row.vpd_factor 0 > 2.0) →
      safe_get row.z_score 0 < -2.0 →
      (generate_signal row).action = Action.BUY ∧
        (generate_signal row).score = 75) ∧
    (¬(safe_get row.rsi 50 < 30 ∧ safe_get row.vpd_factor 0 > 2.0) →
      ¬(safe_get row.z_score 0 < -2.0) →
      safe_get row.rsi 50 > 70 →
      (generate_signal row).action = Action.SELL ∧
        (generate_signal row).score = 20) ∧
    (¬(safe_get row.rsi 50 < 30 ∧ safe_get row.vpd_factor 0 > 2.0) →
      ¬(safe_get row.z_score 0 < -2.0) →
      ¬(safe_get row.rsi 50 > 70) →
      safe_get row.z_score 0 > 2.0 →
      (generate_signal row).action = Action.SELL ∧
        (generate_signal row).score = 30) ∧
    (¬(safe_get row.rsi 50 < 30 ∧ safe_get row.vpd_factor 0 > 2.0) →
      ¬(safe_get row.z_score 0 < -2.0) →
      ¬(safe_get row.rsi 50 > 70) →
      ¬(safe_get row.z_score 0 > 2.0) →
      (generate_signal row).action = Action.HOLD ∧
        (generate_signal row).score = 50) ∧
    (safe_get row.rsi 50 < 30 ∧ safe_get row.vpd_factor 0 > 2.0 ∧
        safe_get row.z_score 0 < -2.0 →
      (generate_signal row).action = Action.STRONG_BUY ∧
        (generate_signal row).score = 90) := by
  unfold generate_signal Z_SCORE_THRESHOLD
  norm_num only
  split_ifs with h1 h2 h3 h4 <;>
    refine ⟨fun ha => ?_, fun ha hb => ?_, fun ha hb hc => ?_,
      fun ha hb hc hd => ?_, fun ha hb hc hd => ?_, fun ha => ?_⟩ <;>
    first
      | exact ⟨rfl, rfl⟩
      | exact absurd h1 ha
      | exact absurd ha h1
      | exact absurd h2 hb
      | exact absurd hb h2
      | exact absurd h3 hc
      | exact absurd hc h3
      | exact absurd h4 hd
      | exact absurd hd h4
      | exact absurd ⟨ha.1, ha.2.1⟩ h1

/-- C1 witness: a row meeting rules 1 and 2 simultaneously classifies as
`STRONG_BUY` with score 90. -/
theorem claim_C1_rule_order_witness :
    (generate_signal
        ⟨some 100, none, none, some 3, some 10, some (-3)⟩).action =
      Action.STRONG_BUY ∧
    (generate_signal
        ⟨some 100, none, none, some 3, some 10, some (-3)⟩).score = 90 :=
  (claim_C1_rule_order ⟨some 100, none, none, some 3, some 10, some (-3)⟩).2.2.2.2.2
    ⟨by norm_num [safe_get], by norm_num [safe_get], by norm_num [safe_get]⟩

/-- C2: a frame with fewer than 20 rows takes the short circuit (whose output
depends only on the row count, so no factor is computed); a frame with at
least 20 rows never takes the `SKIP` branch, and its classified action is not
`SKIP` either. -/
theorem claim_C2_skip_short_circuit (df : List Bar) :
    (df.length < 20 → run_main df = Output.skip df.length) ∧
    (20 ≤ df.length →
      (∀ n, run_main df ≠ Output.skip n) ∧
      ∃ r, run_main df = Output.signal r ∧ r.action ≠ Action.SKIP) := by
  constructor
  · intro h
    unfold run_main
    rw [if_pos h]
  · intro h
    have h0 : 0 < df.length := by omega
    have hrun : run_main df =
        Output.signal (generate_signal (rowAt df (df.length - 1))) := by
      unfold run_main
      rw [if_neg (by omega), calculate_factors_getLast? df h0]
    refine ⟨fun n hn => ?_, generate_signal (rowAt df (df.length - 1)), hrun,
      generate_signal_action_ne_SKIP _⟩
    rw [hrun] at hn
    exact Output.noConfusion hn

/-- C2 witness: the empty frame short-circuits to `SKIP`, and a 20-row frame
never does. -/
theorem claim_C2_skip_short_circuit_witness :
    run_main [] = Output.skip 0 ∧
    ∀ n, run_main (List.replicate 20 ⟨none, none, none, some 1, some 1⟩) ≠
      Output.skip n :=
  ⟨(claim_C2_skip_short_circuit []).1 (by norm_num),
   ((claim_C2_skip_short_circuit
      (List.replicate 20 ⟨none, none, none, some 1, some 1⟩)).2 (by simp)).1⟩

/-- C3: the classifier is total on every factor row; a missing `vpd_factor`
is replaced by 0.0, a missing `rsi` by 50.0 and a missing `z_score` by 0.0
before rule evaluation, and the emitted factor values are exactly the
substituted ones. -/
theorem claim_C3_classifier_total_defaults (row : Row) :
    (generate_signal row).vpd = safe_get row.vpd_factor 0 ∧
    (generate_signal row).rsi = safe_get row.rsi 50 ∧
    (generate_signal row).z_score = safe_get row.z_score 0 ∧
    (row.vpd_factor = none → (generate_signal row).vpd = 0) ∧
    (row.rsi = none → (generate_signal row).rsi = 50) ∧
    (row.z_score = none → (generate_signal row).z_score = 0) := by
  unfold generate_signal
  dsimp only
  split_ifs <;>
    refine ⟨rfl, rfl, rfl, fun h => ?_, fun h => ?_, fun h => ?_⟩ <;>
    simp [safe_get, h]

/-- C3 witness: on the all-missing row the classifier yields the default
factor triple (0, 50, 0). -/
theorem claim_C3_classifier_total_defaults_witness :
    (generate_signal ⟨none, none, none, none, none, none⟩).vpd = 0 ∧
    (generate_signal ⟨none, none, none, none, none, none⟩).rsi = 50 ∧
    (generate_signal ⟨none, none, none, none, none, none⟩).z_score = 0 :=
  ⟨(claim_C3_classifier_total_defaults _).2.2.2.1 rfl,
   (claim_C3_classifier_total_defaults _).2.2.2.2.1 rfl,
   (claim_C3_classifier_total_defaults _).2.2.2.2.2 rfl⟩

/-- C4: for every Series of length at least 15, every defined RSI value lies in
the closed interval [0, 100] (gain mean is nonnegative and the guarded loss
mean is strictly positive, so `rs ≥ 0` and `100 - 100/(1+rs) ∈ [0, 100)`). -/
theorem claim_C4_rsi_in_range (closes : List (Option ℝ))
    (hlen : 15 ≤ closes.length) (i : ℕ) (x : ℝ)
    (hx : calculate_rsi closes i = some x) : 0 ≤ x ∧ x ≤ 100 := by
  unfold calculate_rsi at hx
  rcases hg : gainMeanAt RSI_PERIOD closes i with _ | g <;> rw [hg] at hx
  · exact absurd hx (by simp)
  · rcases hL : lossGuardAt RSI_PERIOD closes i with _ | L <;> rw [hL] at hx
    · exact absurd hx (by simp)
    · rw [Option.some.injEq] at hx
      subst hx
      have hg0 := gainMeanAt_nonneg hg
      have hL0 := lossGuardAt_pos hL
      have hrs : 0 ≤ g / L := div_nonneg hg0 hL0.le
      constructor
      · have : 100 / (1 + g / L) ≤ 100 := div_le_self (by norm_num) (by linarith)
        linarith
      · have : 0 ≤ 100 / (1 + g / L) := div_nonneg (by norm_num) (by linarith)
        linarith

/-- C4 witness: the flat 15-bar close series has RSI `0` at its last row, and
`0` lies in [0, 100]. -/
theorem claim_C4_rsi_in_range_witness : (0 : ℝ) ≤ 0 ∧ (0 : ℝ) ≤ 100 :=
  claim_C4_rsi_in_range (List.replicate 15 (some 1)) (by simp) 14 0
    (calculate_rsi_replicate 1 (by norm_num) (by norm_num))

/-- C5: for every Series whose defined volumes are nonnegative, every defined
`vpd_factor` value is nonnegative (the guarded volume moving average is
strictly positive and `|pct| + 1e-6` is strictly positive). -/
theorem claim_C5_vpd_nonneg (vols closes : List (Option ℝ))
    (hwf : ∀ y : ℝ, some y ∈ vols → 0 ≤ y) (i : ℕ) (x : ℝ)
    (hx : vpd_factorAt vols closes i = some x) : 0 ≤ x := by
  unfold vpd_factorAt at hx
  rcases hv : cellAt vols i with _ | v <;> rw [hv] at hx
  · exact absurd hx (by simp)
  · rcases hm : volume_maAt vols i with _ | m <;> rw [hm] at hx
    · exact absurd hx (by simp)
    · rcases hp : price_change_pctAt closes i with _ | p <;> rw [hp] at hx
      · exact absurd hx (by simp)
      · rw [Option.some.injEq] at hx
        subst hx
        have hv0 : 0 ≤ v := hwf v (cellAt_mem hv)
        have hm0 : 0 < m := volume_maAt_pos hwf hm
        have hden : (0 : ℝ) < |p| + 1e-6 := by positivity
        exact div_nonneg (div_nonneg hv0 hm0.le) hden.le

/-- C5 witness: a 21-bar constant series has `vpd_factor = 1000000 ≥ 0` at its
last row. -/
theorem claim_C5_vpd_nonneg_witness : (0 : ℝ) ≤ 1000000 :=
  claim_C5_vpd_nonneg (List.replicate 21 (some 5)) (List.replicate 21 (some 100))
    (fun y hy => by
      have h := List.eq_of_mem_replicate hy
      rw [Option.some.injEq] at h
      rw [h]
      norm_num)
    20 1000000
    (vpd_factorAt_replicate 5 100 (by norm_num) (by norm_num) (by norm_num))

/-- C6: the three divide-by-zero guards leave no zero divisor — a defined
guarded volume moving average is nonzero, a defined guarded RSI loss mean is
nonzero (indeed positive), a defined guarded rolling std is nonzero — and a
constant close series of 25 bars yields `z_score = 0` at the last row. -/
theorem claim_C6_division_guards (closes vols : List (Option ℝ)) (i : ℕ) :
    (∀ m, volume_maAt vols i = some m → m ≠ 0) ∧
    (∀ L, lossGuardAt RSI_PERIOD closes i = some L → L ≠ 0) ∧
    (∀ sd, std_guardAt closes i = some sd → sd ≠ 0) ∧
    (∀ c : ℝ, closes = List.replicate 25 (some c) →
      z_scoreAt closes 24 = some 0) := by
  refine ⟨fun m hm => ?_, fun L hL => (lossGuardAt_pos hL).ne',
    fun sd hsd => ?_, fun c hc => ?_⟩
  · unfold volume_maAt at hm
    rcases hr : rollingMeanAt VOLUME_MA_PERIOD vols i with _ | m0 <;>
      rw [hr] at hm
    · exact absurd hm (by simp)
    · rw [Option.map_some', Option.some.injEq] at hm
      subst hm
      split_ifs with hz
      · norm_num
      · exact hz
  · unfold std_guardAt at hsd
    rcases hr : std_20At closes i with _ | s0 <;> rw [hr] at hsd
    · exact absurd hsd (by simp)
    · rw [Option.map_some', Option.some.injEq] at hsd
      subst hsd
      split_ifs with hz
      · norm_num
      · exact hz
  · rw [hc]
    exact z_scoreAt_replicate c (by norm_num) (by norm_num)

/-- C6 witness: the 25-bar flat close series at constant 100 has z-score `0`
at row 24. -/
theorem claim_C6_division_guards_witness :
    z_scoreAt (List.replicate 25 (some (100 : ℝ))) 24 = some 0 :=
  (claim_C6_division_guards (List.replicate 25 (some 100)) [] 24).2.2.2 100 rfl

/-- C7 counterexample: under the shape-B bare-list fallback the loader performs
no numeric coercion at all, so a non-coercible `volume` cell survives loading
as a raw object instead of becoming the missing marker. -/
theorem claim_C7_counterexample :
    ¬ ∀ raw : RawInput, ∀ b ∈ load_data raw, numOrMissing b.volume := by
  intro h
  exact h (RawInput.bareList
      [⟨Cell.num 1, Cell.num 1, Cell.num 1, Cell.num 1, Cell.obj "N/A"⟩]) _
    (List.mem_singleton.mpr rfl)

/-- C7 amended: under shape A every field of every loaded bar is coerced
element-wise (non-coercible values become the missing marker, coercible values
pass through verbatim, and the bar at each index is exactly the coerced
original, so no bar or field aborts the others); under the shape-B fallback
the bars are returned verbatim with no coercion. -/
theorem claim_C7_amended_loader_coercion :
    (∀ (cs : List RawBar) (k : ℕ),
      (load_data (RawInput.withCandles cs)).length = cs.length ∧
      (load_data (RawInput.withCandles cs))[k]? = (cs[k]?).map coerceBar ∧
      (∀ b ∈ load_data (RawInput.withCandles cs),
        numOrMissing b.open_ ∧ numOrMissing b.high ∧ numOrMissing b.low ∧
        numOrMissing b.close ∧ numOrMissing b.volume)) ∧
    (∀ x : ℝ, to_numeric (Cell.num x) = Cell.num x) ∧
    (∀ s : String, to_numeric (Cell.obj s) = Cell.nan) ∧
    (∀ bs : List RawBar, load_data (RawInput.bareList bs) = bs) := by
  refine ⟨fun cs k => ⟨by simp [load_data], by simp [load_data], ?_⟩,
    fun x => rfl, fun s => rfl, fun bs => rfl⟩
  intro b hb
  simp only [load_data, List.mem_map] at hb
  obtain ⟨a, _, rfl⟩ := hb
  exact ⟨numOrMissing_to_numeric _, numOrMissing_to_numeric _,
    numOrMissing_to_numeric _, numOrMissing_to_numeric _,
    numOrMissing_to_numeric _⟩

/-- C7 witness: loading a one-bar shape-A record whose `volume` is not
coercible leaves that bar's volume as the missing marker. -/
theorem claim_C7_amended_loader_coercion_witness :
    numOrMissing
      ((coerceBar ⟨Cell.num 1, Cell.num 2, Cell.num 3, Cell.num 4,
        Cell.obj "oops"⟩).volume) :=
  ((claim_C7_amended_loader_coercion.1
      [⟨Cell.num 1, Cell.num 2, Cell.num 3, Cell.num 4, Cell.obj "oops"⟩]
      0).2.2 _ (by simp [load_data])).2.2.2.2

/-- C8: the Factor Engine is causal — two frames that agree on all bars at
indices `≤ i` produce the same augmented row at index `i` (all five factor
values `volume_ma`, `price_change_pct`, `vpd_factor`, `rsi`, `z_score`, and
the close), so no factor at index `i` depends on any later bar. -/
theorem claim_C8_causality (df1 df2 : List Bar) (i : ℕ)
    (h1 : i < df1.length) (h2 : i < df2.length)
    (htake : df1.take (i + 1) = df2.take (i + 1)) :
    rowAt df1 i = rowAt df2 i := by
  have hagc : AgreeUpTo (closesOf df1) (closesOf df2) i := by
    intro j hj
    apply cellAt_eq_of_take_eq _ hj
    unfold closesOf
    rw [← List.map_take, ← List.map_take, htake]
  have hagv : AgreeUpTo (volumesOf df1) (volumesOf df2) i := by
    intro j hj
    apply cellAt_eq_of_take_eq _ hj
    unfold volumesOf
    rw [← List.map_take, ← List.map_take, htake]
  unfold rowAt
  rw [hagc i (le_refl i), volume_maAt_congr hagv,
    price_change_pctAt_congr hagc, vpd_factorAt_congr hagv hagc,
    calculate_rsi_congr hagc, z_scoreAt_congr hagc]

/-- C8 witness: two 2-bar frames sharing bar 0 but with different bar 1 have
identical factor rows at index 0. -/
theorem claim_C8_causality_witness :
    rowAt [⟨none, none, none, some 1, some 2⟩,
           ⟨none, none, none, some 5, some 6⟩] 0 =
    rowAt [⟨none, none, none, some 1, some 2⟩,
           ⟨none, none, none, some 9, some 7⟩] 0 :=
  claim_C8_causality _ _ 0 (by norm_num) (by norm_num) rfl

/-- C9: a Series of at least 20 bars with constant positive close and constant
positive volume classifies as `STRONG_BUY` with score 90: the flat deltas give
RSI 0 (loss substituted to `0.0001`, `rs = 0`) and the zero price change gives
`vpd_factor = 1/1e-6`, so rule 1 (`rsi < 30`, `vpd > 2.0`) fires. -/
theorem claim_C9_flat_positive_strong_buy (df : List Bar) (c v : ℝ)
    (hc : 0 < c) (hv : 0 < v)
    (hclose : ∀ b ∈ df, b.close = some c)
    (hvol : ∀ b ∈ df, b.volume = some v)
    (hn : 20 ≤ df.length) :
    calculate_rsi (closesOf df) (df.length - 1) = some 0 ∧
    vpd_factorAt (volumesOf df) (closesOf df) (df.length - 1) = some 1000000 ∧
    ∃ r, run_main df = Output.signal r ∧
      r.action = Action.STRONG_BUY ∧ r.score = 90 := by
  have hcl : closesOf df = List.replicate df.length (some c) := by
    apply List.eq_replicate_iff.mpr
    refine ⟨by simp [closesOf], ?_⟩
    intro b hb
    obtain ⟨a, ha, rfl⟩ := List.mem_map.mp hb
    exact hclose a ha
  have hvl : volumesOf df = List.replicate df.length (some v) := by
    apply List.eq_replicate_iff.mpr
    refine ⟨by simp [volumesOf], ?_⟩
    intro b hb
    obtain ⟨a, ha, rfl⟩ := List.mem_map.mp hb
    exact hvol a ha
  have hrsi : calculate_rsi (closesOf df) (df.length - 1) = some 0 := by
    rw [hcl]
    exact calculate_rsi_replicate c (by omega) (by omega)
  have hvpd : vpd_factorAt (volumesOf df) (closesOf df) (df.length - 1) =
      some 1000000 := by
    rw [hcl, hvl]
    exact vpd_factorAt_replicate v c hv.ne' (by omega) (by omega)
  have hz : z_scoreAt (closesOf df) (df.length - 1) = some 0 := by
    rw [hcl]
    exact z_scoreAt_replicate c (by omega) (by omega)
  refine ⟨hrsi, hvpd, generate_signal (rowAt df (df.length - 1)), ?_, ?_⟩
  · unfold run_main
    rw [if_neg (by omega), calculate_factors_getLast? df (by omega)]
  · have hsig : (generate_signal (rowAt df (df.length - 1))).action =
        Action.STRONG_BUY ∧
        (generate_signal (rowAt df (df.length - 1))).score = 90 := by
      unfold generate_signal rowAt
      dsimp only
      rw [hrsi, hvpd]
      rw [if_pos (by constructor <;> norm_num [safe_get])]
      exact ⟨rfl, rfl⟩
    exact hsig

/-- C9 witness: 25 bars of close 100 and volume 1000 produce the
`STRONG_BUY`, score-90 signal. -/
theorem claim_C9_flat_positive_strong_buy_witness :
    ∃ r, run_main
        (List.replicate 25 ⟨some 1, some 1, some 1, some 100, some 1000⟩) =
        Output.signal r ∧
      r.action = Action.STRONG_BUY ∧ r.score = 90 :=
  (claim_C9_flat_positive_strong_buy
    (List.replicate 25 ⟨some 1, some 1, some 1, some 100, some 1000⟩)
    100 1000 (by norm_num) (by norm_num)
    (fun b hb => by rw [List.eq_of_mem_replicate hb])
    (fun b hb => by rw [List.eq_of_mem_replicate hb])
    (by simp)).2.2

/-- C10: the output's `close_price` is the last bar's raw close verbatim — the
default substitution applies only to the three factor fields — and a missing
last close yields a missing `close_price`, not a substituted default. -/
theorem claim_C10_close_price_verbatim (df : List Bar) (h : 20 ≤ df.length) :
    ∃ r b, run_main df = Output.signal r ∧ df.getLast? = some b ∧
      r.close_price = b.close ∧ (b.close = none → r.close_price = none) := by
  have h0 : 0 < df.length := by omega
  have hlast : df.getLast? = some (df.get ⟨df.length - 1, by omega⟩) := by
    rw [List.getLast?_eq_getElem?,
      List.getElem?_eq_getElem (by omega)]
    rfl
  refine ⟨generate_signal (rowAt df (df.length - 1)),
    df.get ⟨df.length - 1, by omega⟩, ?_, hlast, ?_, ?_⟩
  · unfold run_main
    rw [if_neg (by omega), calculate_factors_getLast? df h0]
  · rw [generate_signal_close_price]
    unfold rowAt
    dsimp only
    unfold cellAt closesOf
    rw [List.getD_eq_getElem?_getD, List.getElem?_map,
      List.getElem?_eq_getElem (by simpa using (by omega : df.length - 1 < df.length))]
    rfl
  · intro hb
    rw [generate_signal_close_price]
    unfold rowAt
    dsimp only
    unfold cellAt closesOf
    rw [List.getD_eq_getElem?_getD, List.getElem?_map,
      List.getElem?_eq_getElem (by simpa using (by omega : df.length - 1 < df.length))]
    simpa using hb

/-- C10 witness: for a 20-bar frame whose last close is missing, the emitted
`close_price` is missing as well. -/
theorem claim_C10_close_price_verbatim_witness :
    ∃ r b, run_main (List.replicate 20 ⟨none, none, none, none, some 1⟩) =
        Output.signal r ∧
      (List.replicate 20 (⟨none, none, none, none, some 1⟩ : Bar)).getLast? =
        some b ∧
      r.close_price = b.close ∧ (b.close = none → r.close_price = none) :=
  claim_C10_close_price_verbatim
    (List.replicate 20 ⟨none, none, none, none, some 1⟩) (by simp)

end Wonyotti

end
